import Mathlib

/-!
Verification of the `cache_diff` derive crate.

The development shallowly embeds the generator in
`src/cache_diff_derive/src/fields.rs` (the module wired into the crate via
`mod fields;` in `src/cache_diff_derive/src/lib.rs`), the alternative
attribute parser in `src/cache_diff_derive/src/attributes.rs`, and the
`CacheDiff::fmt_value` default from `src/cache_diff/src/lib.rs`.

Conventions of the embedding:
  - `syn` values are modelled structurally: a type is either a path of
    segments or something else; an attribute is a path ident paired with a
    parsed meta shape; the entries inside `#[cache_diff(...)]` are modelled
    at token granularity as key plus optional value token.
  - `syn::Result` becomes `Except String`; the error payload is the message.
  - A Rust panic (from `unimplemented!` or `unwrap`) is a distinct outcome
    from a propagated `syn::Error`, captured by `GenResult.panic`.
  - The token stream produced by `quote!` is modelled by the data it
    interpolates: one `Comparison` per emitted field check, and the runtime
    semantics of the emitted `diff` body is `runDiff`.
-/

/-- Model of `syn::PathArguments`: the generics attached to a path segment. -/
inductive PathArguments where
  | none
  | angleBracketed
  | parenthesized
deriving DecidableEq

/-- Model of `syn::PathSegment`: one identifier plus its arguments. -/
structure PathSegment where
  ident : String
  arguments : PathArguments
deriving DecidableEq

/-- Model of `syn::Type`, keeping only the distinction `fields.rs` makes:
a path type (with its segments) versus every other type shape. -/
inductive SynType where
  | typePath (segments : List PathSegment)
  | other
deriving DecidableEq

/-- Value token following `key =` in one `#[cache_diff(...)]` entry:
a string literal, a path (function reference), or any other token. -/
inductive EntryValue where
  | litStr (value : String)
  | path (reference : String)
  | otherTok
deriving DecidableEq

/-- One comma-separated entry of `#[cache_diff(...)]`, at token granularity:
the leading identifier and, when an `=` follows, the value token. -/
structure RawEntry where
  key : String
  value : Option EntryValue
deriving DecidableEq

/-- Model of `syn::Meta`: the shape of one attribute.
`#[cache_diff(a, b)]` is `list`, bare `#[cache_diff]` is `path`,
`#[cache_diff = v]` is `nameValue`. -/
inductive SynMeta where
  | list (entries : List RawEntry)
  | path
  | nameValue (value : String)
deriving DecidableEq

/-- Model of `syn::Field` for a named field: its identifier, declared type,
and attributes (attribute path ident paired with the meta shape).
Fields taken from `syn::Fields::Named` always carry an identifier, so the
identifier is a plain `String`. -/
structure SynField where
  ident : String
  ty : SynType
  attrs : List (String × SynMeta)
deriving DecidableEq

/-- Model of `syn::Fields`. -/
inductive SynFields where
  | named (fields : List SynField)
  | unnamed (types : List SynType)
  | unit
deriving DecidableEq

/-- Model of `syn::Data`. -/
inductive SynData where
  | struct (fields : SynFields)
  | enumData
  | unionData
deriving DecidableEq

/-- Model of `syn::DeriveInput`. -/
structure DeriveInput where
  ident : String
  data : SynData
deriving DecidableEq

/-- `CacheAttributes` from `fields.rs` lines 9-14: the per-field
configuration parsed out of `#[cache_diff(...)]`. The `Default` derive is
modelled by the field default values (all `none`). -/
structure CacheAttributes where
  rename : Option String := none
  display : Option String := none
  ignore : Option Unit := none
deriving DecidableEq

/-- The `syn::parse::Parse` impl for `CacheAttributes` in `fields.rs`
lines 46-74: parse a single entry. The source parses an `Ident`, matches
its text, and for `rename`/`display` then demands `= <string literal>`
resp. `= <path>`; an unknown identifier errors with
`Unknown attribute: {name}` before any value is looked at.
For `ignore` the source consumes nothing further; a trailing `= v` token
is then rejected by the surrounding `Punctuated::parse_terminated`
(expecting `,`), which at this entry granularity surfaces here. -/
def CacheAttributes.parse (e : RawEntry) : Except String CacheAttributes :=
  match e.key with
  | "rename" =>
    match e.value with
    | some (EntryValue.litStr s) => Except.ok { rename := some s }
    | some _ => Except.error "expected string literal"
    | none => Except.error "expected `=`"
  | "display" =>
    match e.value with
    | some (EntryValue.path p) => Except.ok { display := some p }
    | some _ => Except.error "expected identifier"
    | none => Except.error "expected `=`"
  | "ignore" =>
    match e.value with
    | none => Except.ok { ignore := some () }
    | some _ => Except.error "expected `,`"
  | other => Except.error ("Unknown attribute: " ++ other)

/-- The merge step of `CacheAttributes::parse_all` in `fields.rs`
lines 26-34: each `Some` in a later entry overwrites the accumulator. -/
def mergeAttr (acc a : CacheAttributes) : CacheAttributes :=
  { rename := match a.rename with | some v => some v | none => acc.rename
    display := match a.display with | some v => some v | none => acc.display
    ignore := match a.ignore with | some v => some v | none => acc.ignore }

/-- `CacheAttributes::parse_all` from `fields.rs` lines 18-43: a list meta
has its entries parsed in order (first failure aborts) and merged
last-write-wins into a single configuration; any other meta shape fails
with `Expected a list of attributes`. -/
def CacheAttributes.parse_all (input : SynMeta) : Except String CacheAttributes :=
  match input with
  | SynMeta.list entries =>
    match entries.mapM CacheAttributes.parse with
    | Except.ok parsed => Except.ok (parsed.foldl mergeAttr {})
    | Except.error e => Except.error e
  | _ => Except.error "Expected a list of attributes"

namespace AttrsRs

/-- The `Key` enum of `attributes.rs` lines 19-25. -/
inductive Key where
  | rename
  | display
  | ignore
deriving DecidableEq

/-- The strum `Display` derive on `Key`: the variant name. -/
def Key.str : Key → String
  | Key.rename => "rename"
  | Key.display => "display"
  | Key.ignore => "ignore"

/-- The strum `EnumString` derive on `Key`: match a variant name. -/
def Key.from_str (s : String) : Option Key :=
  match s with
  | "rename" => some Key.rename
  | "display" => some Key.display
  | "ignore" => some Key.ignore
  | _ => none

/-- The strum `EnumIter` derive on `Key`: the variants in declaration
order. -/
def Key.iter : List Key := [Key.rename, Key.display, Key.ignore]

/-- The error message built in `attributes.rs` lines 79-90 for an unknown
key. -/
def unknownKeyMessage (name : String) : String :=
  "Unknown cache_diff attribute: `" ++ name ++ "`. Must be one of " ++
    String.intercalate ", " (Key.iter.map (fun k => "`" ++ k.str ++ "`"))

/-- The `syn::parse::Parse` impl for `CacheAttributes` in `attributes.rs`
lines 73-106: identical to the `fields.rs` parser except that the key is
resolved through `Key::from_str` and the unknown-key message enumerates
the valid keys. -/
def parse (e : RawEntry) : Except String CacheAttributes :=
  match Key.from_str e.key with
  | Option.none => Except.error (unknownKeyMessage e.key)
  | some Key.rename =>
    match e.value with
    | some (EntryValue.litStr s) => Except.ok { rename := some s }
    | some _ => Except.error "expected string literal"
    | none => Except.error "expected `=`"
  | some Key.display =>
    match e.value with
    | some (EntryValue.path p) => Except.ok { display := some p }
    | some _ => Except.error "expected identifier"
    | none => Except.error "expected `=`"
  | some Key.ignore =>
    match e.value with
    | none => Except.ok { ignore := some () }
    | some _ => Except.error "expected `,`"

/-- `CacheAttributes::parse_all` from `attributes.rs` lines 45-70: the
same list-or-fail shape and last-write merge as the `fields.rs` copy, over
the `attributes.rs` entry parser. -/
def parse_all (input : SynMeta) : Except String CacheAttributes :=
  match input with
  | SynMeta.list entries =>
    match entries.mapM parse with
    | Except.ok parsed => Except.ok (parsed.foldl mergeAttr {})
    | Except.error e => Except.error e
  | _ => Except.error "Expected a list of attributes"

end AttrsRs

/-- `extract_attribute_from_field` from `fields.rs` lines 76-78: the first
attribute whose path is the given identifier. -/
def extract_attribute_from_field (f : SynField) (name : String) : Option SynMeta :=
  (f.attrs.find? (fun a => a.fst == name)).map Prod.snd

/-- `is_pathbuf` from `fields.rs` lines 80-87: a path type whose last
segment is the identifier `PathBuf` with no arguments. -/
def is_pathbuf (ty : SynType) : Bool :=
  match ty with
  | SynType.typePath segments =>
    match segments.getLast? with
    | some segment => segment.ident == "PathBuf" && segment.arguments == PathArguments.none
    | none => false
  | _ => false

/-- Attribute resolution for one field, `fields.rs` lines 103-105: parse
the `cache_diff` attribute when present, else the all-`none` default. -/
def field_attributes (f : SynField) : Except String CacheAttributes :=
  match extract_attribute_from_field f "cache_diff" with
  | some attr => CacheAttributes.parse_all attr
  | none => Except.ok {}

/-- Rust `name.replace("_", " ")` from `fields.rs` line 110. The pattern
is the single character `_`, so the call replaces each underscore
character with one space. -/
def replaceUnderscores (s : String) : String :=
  String.mk (s.data.map (fun c => if c = '_' then ' ' else c))

/-- Display-name computation, `fields.rs` lines 107-110: the rename value
when given, else the field identifier; then underscores are replaced by
spaces (the replacement runs on the result of the unwrap, so it applies to
rename values as well). -/
def display_name (attributes : CacheAttributes) (fieldIdent : String) : String :=
  replaceUnderscores (match attributes.rename with | some r => r | none => fieldIdent)

/-- Display-function selection, `fields.rs` lines 112-120: the explicit
override when given, else `std::path::Path::display` for a `PathBuf`
typed field, else `std::convert::identity`. The chosen `syn::Path` is
modelled by its rendered text. -/
def field_display (attributes : CacheAttributes) (ty : SynType) : String :=
  match attributes.display with
  | some d => d
  | none =>
    if is_pathbuf ty then "std::path::Path::display" else "std::convert::identity"

/-- The data interpolated into one `quote!` comparison block,
`fields.rs` lines 123-133: the accessed field, the display name, and the
display function. -/
structure Comparison where
  field : String
  name : String
  display : String
deriving DecidableEq

/-- The per-field body of the generation loop, `fields.rs` lines 100-134:
resolve the attributes (propagating a parse error), compute name and
display, and emit a comparison unless `ignore` is set. -/
def fieldComparison (f : SynField) : Except String (Option Comparison) :=
  match field_attributes f with
  | Except.error e => Except.error e
  | Except.ok attributes =>
    if attributes.ignore.isNone then
      Except.ok (some
        { field := f.ident
          name := display_name attributes f.ident
          display := field_display attributes f.ty })
    else
      Except.ok none

/-- The generation loop over the named fields, `fields.rs` lines 99-135,
preserving declaration order and aborting on the first attribute error. -/
def processFields : List SynField → Except String (List Comparison)
  | [] => Except.ok []
  | f :: rest =>
    match fieldComparison f with
    | Except.error e => Except.error e
    | Except.ok Option.none => processFields rest
    | Except.ok (some c) => (processFields rest).map (fun cs => c :: cs)

/-- Outcome of running the generator: a propagated `syn::Error`
(`error`), a Rust panic (`panic`), or success. -/
inductive GenResult (α : Type) where
  | ok (value : α)
  | error (message : String)
  | panic (message : String)
deriving DecidableEq

/-- Whether a generator outcome is a propagated error value. -/
def GenResult.isError {α : Type} : GenResult α → Bool
  | GenResult.error _ => true
  | _ => false

/-- `create_cache_diff` from `fields.rs` lines 89-149: named-struct input
has its fields processed into comparisons (attribute errors propagate);
every other data shape hits `unimplemented!("Only implemented for
structs")`, a panic rather than a returned error. -/
def create_cache_diff (ast : DeriveInput) : GenResult (List Comparison) :=
  match ast.data with
  | SynData.struct (SynFields.named fields) =>
    match processFields fields with
    | Except.ok comparisons => GenResult.ok comparisons
    | Except.error e => GenResult.error e
  | _ => GenResult.panic "Only implemented for structs"

/-- The message built by the emitted `format!` in `fields.rs` line 126:
`{name} (`{old}` to `{now}`)` with the backticks hardcoded in the format
string. `env` resolves a display-function path and renders the result with
`Display`, standing for the compile-time meaning of `#display(&...)`
inside `format!`. -/
def diffMessage {Value : Type} (env : String → Value → String)
    (c : Comparison) (selfValue oldValue : Value) : String :=
  c.name ++ " (`" ++ env c.display oldValue ++ "` to `" ++ env c.display selfValue ++ "`)"

/-- Runtime semantics of the emitted `diff` body, `fields.rs`
lines 123-146: walk the comparisons in order, pushing a message for each
field whose two values differ. -/
def runDiff {Value : Type} [DecidableEq Value] (comps : List Comparison)
    (env : String → Value → String) (self old : String → Value) : List String :=
  match comps with
  | [] => []
  | c :: rest =>
    if self c.field ≠ old c.field then
      diffMessage env c (self c.field) (old c.field) :: runDiff rest env self old
    else
      runDiff rest env self old

/-- Default `CacheDiff::fmt_value` from `src/cache_diff/src/lib.rs`
lines 190-193, applied to the already rendered text: wrap in backticks. -/
def fmt_value (value : String) : String := "`" ++ value ++ "`"

/-- Follows the wording of the spec, for comparison with `diffMessage`:
the message the routine would emit if each side were routed through the
injected `fmt_value` helper. -/
def diffMessageSpec {Value : Type} (fv : String → String)
    (env : String → Value → String) (c : Comparison) (selfValue oldValue : Value) : String :=
  c.name ++ " (" ++ fv (env c.display oldValue) ++ " to " ++ fv (env c.display selfValue) ++ ")"

/-- Follows the wording of the spec, for comparison with `runDiff`: the
diff routine with every emitted side passed through `fv` exactly once. -/
def runDiffSpec {Value : Type} [DecidableEq Value] (fv : String → String)
    (comps : List Comparison) (env : String → Value → String)
    (self old : String → Value) : List String :=
  match comps with
  | [] => []
  | c :: rest =>
    if self c.field ≠ old c.field then
      diffMessageSpec fv env c (self c.field) (old c.field) :: runDiffSpec fv rest env self old
    else
      runDiffSpec fv rest env self old

/-- Whether the first list occurs as a leading segment of the second. -/
def listStartsWith : List Char → List Char → Bool
  | [], _ => true
  | _ :: _, [] => false
  | a :: as, b :: bs => a == b && listStartsWith as bs

/-- Whether the first list occurs contiguously inside the second. -/
def listHasSub (needle : List Char) : List Char → Bool
  | [] => listStartsWith needle []
  | b :: t => listStartsWith needle (b :: t) || listHasSub needle t

/-- Whether `needle` occurs as a substring of `hay`. -/
def strHasSub (hay needle : String) : Bool :=
  listHasSub needle.data hay.data

/-- Helper: a field whose resolved attributes parse successfully without
`ignore` yields exactly one comparison, carrying the field identifier, the
computed display name, and the selected display function. -/
theorem fieldComparison_not_ignored (f : SynField) (a : CacheAttributes)
    (ha : field_attributes f = Except.ok a) (hi : a.ignore = none) :
    fieldComparison f =
      Except.ok (some ⟨f.ident, display_name a f.ident, field_display a f.ty⟩) := by
  simp [fieldComparison, ha, hi]

/-- Helper: a field whose resolved attributes carry `ignore` yields no
comparison. -/
theorem fieldComparison_ignored (f : SynField) (a : CacheAttributes)
    (ha : field_attributes f = Except.ok a) (hi : a.ignore = some ()) :
    fieldComparison f = Except.ok none := by
  simp [fieldComparison, ha, hi]

/-- Helper: when every planned field differs, the emitted routine produces
one message per comparison, in the order of the comparisons. -/
theorem runDiff_all_ne {Value : Type} [DecidableEq Value]
    (comps : List Comparison) (env : String → Value → String)
    (self old : String → Value)
    (h : ∀ c ∈ comps, self c.field ≠ old c.field) :
    runDiff comps env self old =
      comps.map (fun c => diffMessage env c (self c.field) (old c.field)) := by
  induction comps with
  | nil => rfl
  | cons c rest ih =>
    have hc : self c.field ≠ old c.field := h c (List.mem_cons_self c rest)
    simp only [runDiff, List.map_cons, if_pos hc]
    exact congrArg _ (ih (fun c hc' => h c (List.mem_cons_of_mem _ hc')))

/-- Helper: when every field of a named struct resolves without `ignore`,
the generated comparisons access exactly the declared fields, in
declaration order. -/
theorem processFields_all_kept (fs : List SynField)
    (hni : ∀ f ∈ fs, ∃ a, field_attributes f = Except.ok a ∧ a.ignore = none) :
    ∀ comps, processFields fs = Except.ok comps →
      comps.map Comparison.field = fs.map SynField.ident := by
  induction fs with
  | nil =>
    intro comps h
    simp only [processFields, Except.ok.injEq] at h
    subst h
    rfl
  | cons f rest ih =>
    intro comps h
    obtain ⟨a, ha, hai⟩ := hni f (List.mem_cons_self f rest)
    rw [processFields, fieldComparison_not_ignored f a ha hai] at h
    cases hrest : processFields rest with
    | error e => rw [hrest] at h; simp [Except.map] at h
    | ok cs =>
      rw [hrest] at h
      simp only [Except.map, Except.ok.injEq] at h
      subst h
      have := ih (fun g hg => hni g (List.mem_cons_of_mem _ hg)) cs hrest
      simp [this]

/-- C1 (counterexample): the rename string is not used verbatim. A field
`x` renamed to `A_B` gets display name `A B`: the underscore replacement
of `fields.rs` line 110 runs after the rename unwrap and so transforms the
rename string as well, contradicting the claim. -/
theorem c1_rename_underscore_counterexample :
    fieldComparison ⟨"x", SynType.other,
        [("cache_diff", SynMeta.list [⟨"rename", some (EntryValue.litStr "A_B")⟩])]⟩
      = Except.ok (some ⟨"x", "A B", "std::convert::identity"⟩) ∧
    ("A B" : String) ≠ "A_B" :=
  ⟨rfl, by decide⟩

/-- C1 (amended): the display name is the rename string if given, else the
field identifier, in both cases with every underscore replaced by a single
space; a rename string without underscores (such as `Ruby version`) is
therefore used verbatim. -/
theorem c1_display_name_transform (i r : String) (ty : SynType) :
    fieldComparison ⟨i, ty,
        [("cache_diff", SynMeta.list [⟨"rename", some (EntryValue.litStr r)⟩])]⟩
      = Except.ok (some ⟨i, replaceUnderscores r, field_display { rename := some r } ty⟩) ∧
    fieldComparison ⟨i, ty, []⟩
      = Except.ok (some ⟨i, replaceUnderscores i, field_display {} ty⟩) ∧
    replaceUnderscores "Ruby version" = "Ruby version" :=
  ⟨rfl, rfl, rfl⟩

/-- C2: on the unknown key `foo`, parsing fails in both parsers, but only
the (unwired) `attributes.rs` parser enumerates the valid keys in its
message; the compiled `fields.rs` parser reports `Unknown attribute: foo`,
which contains none of `rename`, `display`, `ignore`. -/
theorem c2_unknown_key_message :
    CacheAttributes.parse_all (SynMeta.list [⟨"foo", some (EntryValue.litStr "bar")⟩])
      = Except.error "Unknown attribute: foo" ∧
    strHasSub "Unknown attribute: foo" "rename" = false ∧
    strHasSub "Unknown attribute: foo" "display" = false ∧
    strHasSub "Unknown attribute: foo" "ignore" = false ∧
    AttrsRs.parse_all (SynMeta.list [⟨"foo", some (EntryValue.litStr "bar")⟩])
      = Except.error
          "Unknown cache_diff attribute: `foo`. Must be one of `rename`, `display`, `ignore`" ∧
    strHasSub
      "Unknown cache_diff attribute: `foo`. Must be one of `rename`, `display`, `ignore`"
      "rename" = true ∧
    strHasSub
      "Unknown cache_diff attribute: `foo`. Must be one of `rename`, `display`, `ignore`"
      "display" = true ∧
    strHasSub
      "Unknown cache_diff attribute: `foo`. Must be one of `rename`, `display`, `ignore`"
      "ignore" = true :=
  ⟨rfl, by decide, by decide, by decide, rfl, by decide, by decide, by decide⟩

/-- C3: the generated routine never calls `fmt_value`. On a differing
field its output carries the backticks hardcoded in the `format!` string
of `fields.rs` line 126: it coincides with routing each side through the
default `fmt_value` once, but is unchanged when `fmt_value` is replaced by
a custom formatter, which a routine that actually called the helper would
reflect. On an unchanged field neither routine formats anything. -/
theorem c3_fmt_value_not_called :
    runDiff [⟨"version", "version", "std::convert::identity"⟩]
        (fun _ v => (v : String)) (fun _ => "3.4.0") (fun _ => "3.3.0")
      = ["version (`3.3.0` to `3.4.0`)"] ∧
    runDiff [⟨"version", "version", "std::convert::identity"⟩]
        (fun _ v => (v : String)) (fun _ => "3.4.0") (fun _ => "3.3.0")
      = runDiffSpec fmt_value [⟨"version", "version", "std::convert::identity"⟩]
          (fun _ v => v) (fun _ => "3.4.0") (fun _ => "3.3.0") ∧
    runDiff [⟨"version", "version", "std::convert::identity"⟩]
        (fun _ v => (v : String)) (fun _ => "3.4.0") (fun _ => "3.3.0")
      ≠ runDiffSpec (fun s => "X" ++ s ++ "X")
          [⟨"version", "version", "std::convert::identity"⟩]
          (fun _ v => v) (fun _ => "3.4.0") (fun _ => "3.3.0") ∧
    runDiffSpec (fun s => "X" ++ s ++ "X")
        [⟨"version", "version", "std::convert::identity"⟩]
        (fun _ v => (v : String)) (fun _ => "3.4.0") (fun _ => "3.4.0") = [] ∧
    runDiff [⟨"version", "version", "std::convert::identity"⟩]
        (fun _ v => (v : String)) (fun _ => "3.4.0") (fun _ => "3.4.0") = [] :=
  ⟨rfl, rfl, by decide, rfl, rfl⟩

/-- C4: when generation succeeds on a named struct none of whose fields is
ignored and all planned fields differ, the routine emits exactly one
message per field, accessing the declared fields in declaration order, and
never short-circuits: the output is the full ordered map over the plan. -/
theorem c4_order_preservation {Value : Type} [DecidableEq Value]
    (structName : String) (fs : List SynField) (comps : List Comparison)
    (env : String → Value → String) (self old : String → Value)
    (hgen : create_cache_diff ⟨structName, SynData.struct (SynFields.named fs)⟩
      = GenResult.ok comps)
    (hni : ∀ f ∈ fs, ∃ a, field_attributes f = Except.ok a ∧ a.ignore = none)
    (hdiff : ∀ c ∈ comps, self c.field ≠ old c.field) :
    comps.map Comparison.field = fs.map SynField.ident ∧
    comps.length = fs.length ∧
    runDiff comps env self old =
      comps.map (fun c => diffMessage env c (self c.field) (old c.field)) := by
  have hp : processFields fs = Except.ok comps := by
    cases hpf : processFields fs with
    | error e => simp [create_cache_diff, hpf] at hgen
    | ok cs =>
      simp only [create_cache_diff, hpf, GenResult.ok.injEq] at hgen
      rw [hgen]
  have hmap := processFields_all_kept fs hni comps hp
  refine ⟨hmap, ?_, runDiff_all_ne comps env self old hdiff⟩
  have hlen := congrArg List.length hmap
  simpa using hlen

/-- C4 witness: a two-field struct with both fields changed produces both
messages, in declaration order. -/
theorem c4_order_preservation_witness :
    create_cache_diff ⟨"Metadata", SynData.struct (SynFields.named
        [⟨"ruby_version", SynType.other, []⟩, ⟨"distro", SynType.other, []⟩])⟩
      = GenResult.ok [⟨"ruby_version", "ruby version", "std::convert::identity"⟩,
          ⟨"distro", "distro", "std::convert::identity"⟩] ∧
    ([⟨"ruby_version", "ruby version", "std::convert::identity"⟩,
        ⟨"distro", "distro", "std::convert::identity"⟩] : List Comparison).map Comparison.field
      = ([⟨"ruby_version", SynType.other, []⟩,
          ⟨"distro", SynType.other, []⟩] : List SynField).map SynField.ident ∧
    runDiff [⟨"ruby_version", "ruby version", "std::convert::identity"⟩,
        ⟨"distro", "distro", "std::convert::identity"⟩]
        (fun _ v => (v : String))
        (fun n => if n = "ruby_version" then "3.4.0" else "Ubuntu")
        (fun n => if n = "ruby_version" then "3.3.0" else "Alpine")
      = ["ruby version (`3.3.0` to `3.4.0`)", "distro (`Alpine` to `Ubuntu`)"] := by
  have h := c4_order_preservation "Metadata"
      [⟨"ruby_version", SynType.other, []⟩, ⟨"distro", SynType.other, []⟩]
      [⟨"ruby_version", "ruby version", "std::convert::identity"⟩,
        ⟨"distro", "distro", "std::convert::identity"⟩]
      (fun _ v => (v : String))
      (fun n => if n = "ruby_version" then "3.4.0" else "Ubuntu")
      (fun n => if n = "ruby_version" then "3.3.0" else "Alpine")
      rfl
      (by
        intro f hf
        simp only [List.mem_cons, List.not_mem_nil, or_false] at hf
        rcases hf with rfl | rfl <;> exact ⟨{}, rfl, rfl⟩)
      (by
        intro c hc
        simp only [List.mem_cons, List.not_mem_nil, or_false] at hc
        rcases hc with rfl | rfl <;> decide)
  refine ⟨rfl, h.1, ?_⟩
  rw [h.2.2]
  rfl

/-- C5: a field whose resolved attributes carry `ignore` contributes no
comparison, so the generated routine behaves as if the field were absent
(no message for it can appear, whatever its values); and `rename` and
`display` are still accepted alongside `ignore` (parsing succeeds and
records them) yet cannot influence the output, since the field drops out
of the plan regardless of their values. -/
theorem c5_ignored_field :
    (∀ (f : SynField) (a : CacheAttributes),
      field_attributes f = Except.ok a → a.ignore = some () →
      fieldComparison f = Except.ok none ∧
      ∀ (pre post : List SynField),
        processFields (pre ++ f :: post) = processFields (pre ++ post)) ∧
    (∀ (i r d : String) (ty : SynType),
      field_attributes ⟨i, ty, [("cache_diff", SynMeta.list
          [⟨"ignore", none⟩, ⟨"rename", some (EntryValue.litStr r)⟩,
            ⟨"display", some (EntryValue.path d)⟩])]⟩
        = Except.ok ⟨some r, some d, some ()⟩) := by
  constructor
  · intro f a ha hi
    have hfc := fieldComparison_ignored f a ha hi
    refine ⟨hfc, ?_⟩
    intro pre post
    induction pre with
    | nil => simp [processFields, hfc]
    | cons g gs ih =>
      cases hg : fieldComparison g with
      | error e => simp [processFields, hg]
      | ok o =>
        cases o with
        | none => simpa [processFields, hg] using ih
        | some c => simp [processFields, hg, ih]
  · intro i r d ty
    rfl

/-- C5 witness: an ignored field (even with rename and display also set)
yields no comparison, and a struct containing it plans exactly as the
struct without it. -/
theorem c5_ignored_field_witness :
    fieldComparison ⟨"changed_by", SynType.other,
        [("cache_diff", SynMeta.list [⟨"ignore", none⟩])]⟩ = Except.ok none ∧
    processFields [⟨"version", SynType.other, []⟩,
        ⟨"changed_by", SynType.other, [("cache_diff", SynMeta.list [⟨"ignore", none⟩])]⟩]
      = processFields [⟨"version", SynType.other, []⟩] ∧
    field_attributes ⟨"version", SynType.other, [("cache_diff", SynMeta.list
        [⟨"ignore", none⟩, ⟨"rename", some (EntryValue.litStr "Ruby version")⟩,
          ⟨"display", some (EntryValue.path "my_display")⟩])]⟩
      = Except.ok ⟨some "Ruby version", some "my_display", some ()⟩ := by
  have h := c5_ignored_field.1 ⟨"changed_by", SynType.other,
      [("cache_diff", SynMeta.list [⟨"ignore", none⟩])]⟩ ⟨none, none, some ()⟩ rfl rfl
  exact ⟨h.1, h.2 [⟨"version", SynType.other, []⟩] [],
    c5_ignored_field.2 "version" "Ruby version" "my_display" SynType.other⟩

/-- C6: for any generated plan, running the routine with the same instance
on both sides returns the empty list: no field check can fire when every
field compares equal to itself. -/
theorem c6_diff_self {Value : Type} [DecidableEq Value] (comps : List Comparison)
    (env : String → Value → String) (x : String → Value) :
    runDiff comps env x x = [] := by
  induction comps with
  | nil => rfl
  | cons c rest ih => simp [runDiff, ih]

/-- C6 witness: the single-field plan on an unchanged instance yields no
messages. -/
theorem c6_diff_self_witness :
    runDiff [⟨"version", "version", "std::convert::identity"⟩]
      (fun _ v => (v : String)) (fun _ => "3.4.0") (fun _ => "3.4.0") = [] :=
  c6_diff_self [⟨"version", "version", "std::convert::identity"⟩]
    (fun _ v => (v : String)) (fun _ => "3.4.0")

/-- C7 (counterexample): a tuple struct (positional fields) does not make
generation return an `UnsupportedShape` error value: `create_cache_diff`
hits `unimplemented!` and panics with `Only implemented for structs`, a
message that does not even mention positional fields, and the outcome is
not a propagated error. -/
theorem c7_positional_panic_counterexample :
    create_cache_diff ⟨"S", SynData.struct (SynFields.unnamed [SynType.other])⟩
      = GenResult.panic "Only implemented for structs" ∧
    (create_cache_diff ⟨"S", SynData.struct (SynFields.unnamed [SynType.other])⟩).isError
      = false ∧
    strHasSub "Only implemented for structs" "positional" = false :=
  ⟨rfl, rfl, by decide⟩

/-- C7 (amended): for every record with positional (unnamed) fields,
generation aborts by panicking with `Only implemented for structs` rather
than returning an error value, and no comparison plan is built. -/
theorem c7_positional_fields_panic (structName : String) (types : List SynType) :
    create_cache_diff ⟨structName, SynData.struct (SynFields.unnamed types)⟩
      = GenResult.panic "Only implemented for structs" ∧
    (create_cache_diff ⟨structName, SynData.struct (SynFields.unnamed types)⟩).isError
      = false :=
  ⟨rfl, rfl⟩

/-- C8: duplicate keys are not rejected: the entries parse and merge
last-write-wins for each of the three keys, also when other keys sit in
between; `rename = "A", rename = "B"` resolves to display name `B`. -/
theorem c8_duplicate_last_write (a b p q : String) :
    CacheAttributes.parse_all (SynMeta.list
        [⟨"rename", some (EntryValue.litStr a)⟩, ⟨"rename", some (EntryValue.litStr b)⟩])
      = Except.ok { rename := some b } ∧
    CacheAttributes.parse_all (SynMeta.list
        [⟨"display", some (EntryValue.path p)⟩, ⟨"display", some (EntryValue.path q)⟩])
      = Except.ok { display := some q } ∧
    CacheAttributes.parse_all (SynMeta.list [⟨"ignore", none⟩, ⟨"ignore", none⟩])
      = Except.ok { ignore := some () } ∧
    CacheAttributes.parse_all (SynMeta.list
        [⟨"rename", some (EntryValue.litStr a)⟩, ⟨"display", some (EntryValue.path p)⟩,
          ⟨"rename", some (EntryValue.litStr b)⟩])
      = Except.ok { rename := some b, display := some p } ∧
    display_name { rename := some "B" } "version" = "B" :=
  ⟨rfl, rfl, rfl, rfl, rfl⟩

/-- C9: the display function resolves as override when given, else the
path formatter exactly when `is_pathbuf` holds of the declared type, else
identity; the selected function is single-valued, so the path default and
identity are never both applied. -/
theorem c9_display_resolution (a : CacheAttributes) (ty : SynType) :
    ((∃ d, a.display = some d ∧ field_display a ty = d) ∨
      (a.display = none ∧ is_pathbuf ty = true ∧
        field_display a ty = "std::path::Path::display") ∨
      (a.display = none ∧ is_pathbuf ty = false ∧
        field_display a ty = "std::convert::identity")) ∧
    ¬(field_display a ty = "std::path::Path::display" ∧
      field_display a ty = "std::convert::identity") := by
  constructor
  · cases hd : a.display with
    | none =>
      cases hpb : is_pathbuf ty with
      | false => exact Or.inr (Or.inr ⟨rfl, rfl, by simp [field_display, hd, hpb]⟩)
      | true => exact Or.inr (Or.inl ⟨rfl, rfl, by simp [field_display, hd, hpb]⟩)
    | some d => exact Or.inl ⟨d, rfl, by simp [field_display, hd]⟩
  · rintro ⟨h1, h2⟩
    rw [h1] at h2
    exact absurd h2 (by decide)

/-- C9 witness: the resolution conclusion at the all-default configuration
and the plain `PathBuf` type, where the path formatter is selected. -/
theorem c9_display_resolution_witness :
    ((∃ d, ({} : CacheAttributes).display = some d ∧
        field_display {} (SynType.typePath [⟨"PathBuf", PathArguments.none⟩]) = d) ∨
      (({} : CacheAttributes).display = none ∧
        is_pathbuf (SynType.typePath [⟨"PathBuf", PathArguments.none⟩]) = true ∧
        field_display {} (SynType.typePath [⟨"PathBuf", PathArguments.none⟩])
          = "std::path::Path::display") ∨
      (({} : CacheAttributes).display = none ∧
        is_pathbuf (SynType.typePath [⟨"PathBuf", PathArguments.none⟩]) = false ∧
        field_display {} (SynType.typePath [⟨"PathBuf", PathArguments.none⟩])
          = "std::convert::identity")) ∧
    ¬(field_display {} (SynType.typePath [⟨"PathBuf", PathArguments.none⟩])
        = "std::path::Path::display" ∧
      field_display {} (SynType.typePath [⟨"PathBuf", PathArguments.none⟩])
        = "std::convert::identity") :=
  c9_display_resolution {} (SynType.typePath [⟨"PathBuf", PathArguments.none⟩])

/-- C10: a `cache_diff` attribute that is not a parenthesized list (the
bare path form, or the name-value form) fails parsing with
`Expected a list of attributes`; the all-`none` default configuration is
used exactly when the field carries no `cache_diff` attribute at all. -/
theorem c10_bare_attribute :
    CacheAttributes.parse_all SynMeta.path
      = Except.error "Expected a list of attributes" ∧
    (∀ v, CacheAttributes.parse_all (SynMeta.nameValue v)
      = Except.error "Expected a list of attributes") ∧
    (∀ f, extract_attribute_from_field f "cache_diff" = none →
      field_attributes f = Except.ok {}) ∧
    (∀ f m, extract_attribute_from_field f "cache_diff" = some m →
      field_attributes f = CacheAttributes.parse_all m) := by
  refine ⟨rfl, fun v => rfl, fun f h => ?_, fun f m h => ?_⟩
  · simp [field_attributes, h]
  · simp [field_attributes, h]

/-- C10 witness: a field with a bare `#[cache_diff]` attribute fails
attribute resolution, while a field with no `cache_diff` attribute
resolves to the all-`none` default. -/
theorem c10_bare_attribute_witness :
    field_attributes ⟨"version", SynType.other, [("cache_diff", SynMeta.path)]⟩
      = Except.error "Expected a list of attributes" ∧
    field_attributes ⟨"version", SynType.other, []⟩ = Except.ok {} := by
  constructor
  · rw [c10_bare_attribute.2.2.2
      ⟨"version", SynType.other, [("cache_diff", SynMeta.path)]⟩ SynMeta.path rfl]
    exact c10_bare_attribute.1
  · exact c10_bare_attribute.2.2.1 ⟨"version", SynType.other, []⟩ rfl
